import Mathlib

/-!
Shallow embedding of the `desync` scheduler, handle and pipe code
(`src/scheduler/desync_scheduler.rs`, `src/desync.rs`, `src/pipe.rs`).

Jobs are modelled by natural-number identifiers; running a job appends its
identifier to an execution log.  The mutex-protected `JobQueueCore` is
modelled as a plain record, and every scheduler operation is a pure state
transformer on it, mirroring the critical sections of the Rust source.
-/

/-- Queue states.  The declaring file `queue_state.rs` is not part of the
sources, but the variant set is exactly the one referenced throughout
`desync_scheduler.rs` (and listed in spec §3). -/
inductive QueueState where
  | Idle
  | Pending
  | Running
  | AwokenWhileRunning
  | WaitingForWake
  | Suspending
  | Suspended
  | Panicked
deriving DecidableEq, Repr

/-- Core of a job queue, from `job_queue.rs` (file absent from the sources);
the fields `queue`, `state` and `suspension_count` are the ones accessed by
`desync_scheduler.rs`.  `suspension_count` is modelled as a signed integer:
`Scheduler::resume` decrements it unconditionally and then tests
`suspension_count <= 0`, and the TODO comment there says an extra `resume`
is possible, so the counter must be able to go negative. -/
structure JobQueueCore where
  queue : List Nat
  state : QueueState
  suspension_count : Int
deriving DecidableEq, Repr

/-- Outcome of `SchedulerCore::schedule_thread` (wake an idle worker, spawn a
new one, or do nothing). -/
inductive WakeResult where
  | woke
  | spawned
  | noAction
deriving DecidableEq, Repr

/-- The scheduler's worker pool: the busy flags of the threads vector plus
the `max_threads` cap (`SchedulerCore` in the sources). -/
structure WorkerPool where
  busy : List Bool
  max_threads : Nat
deriving DecidableEq, Repr

/-- Marks the first non-busy worker busy; `none` when every worker is busy. -/
def wakeIdle : List Bool → Option (List Bool)
  | [] => none
  | b :: rest =>
    if b then (wakeIdle rest).map (fun r => b :: r)
    else some (true :: rest)

/-- Modelled from the spec: the body of `SchedulerCore::schedule_thread`
lives in the absent `core.rs`.  Per spec §4.2 (`wake_or_spawn`): hand the
queue to an idle worker if one exists; otherwise spawn a new worker when
under the cap; otherwise do nothing. -/
def schedule_thread (p : WorkerPool) : WorkerPool × WakeResult :=
  match wakeIdle p.busy with
  | some busy2 => ({ p with busy := busy2 }, WakeResult.woke)
  | none =>
    if p.busy.length < p.max_threads then
      ({ p with busy := p.busy ++ [true] }, WakeResult.spawned)
    else (p, WakeResult.noAction)

/-- Modelled from the spec: the body of `SchedulerCore::reschedule_queue`
lives in the absent `core.rs`.  Per the doc comment in
`desync_scheduler.rs` ("If a queue is idle and has pending jobs, places it
in the schedule") and spec invariant §3.2 (a queue is on the run-list only
in state `Pending`): when the queue is `Idle` with a non-empty FIFO it
becomes `Pending` and is pushed onto the run-list. -/
def reschedule_queue (c : JobQueueCore) (sched : List Unit) :
    JobQueueCore × List Unit :=
  if c.state = QueueState.Idle ∧ c.queue ≠ [] then
    ({ c with state := QueueState.Pending }, sched ++ [()])
  else (c, sched)

/-- State visible to `Scheduler::schedule_job_desync`: the (single) queue's
core, the global run-list (entries for that queue) and the worker pool. -/
structure SchedulerState where
  queueCore : JobQueueCore
  schedule : List Unit
  pool : WorkerPool
deriving DecidableEq, Repr

/-- `Scheduler::schedule_job_desync` (desync_scheduler.rs lines 173-218):
push the job onto the queue FIFO; if the queue was `Idle`, move it to
`Pending`, push it on the run-list and call `schedule_thread`; if it was
`Panicked`, panic; otherwise leave everything else alone.  The returned
`Option WakeResult` records whether (and how) `schedule_thread` ran. -/
def schedule_job_desync (s : SchedulerState) (job : Nat) :
    Except String (SchedulerState × Option WakeResult) :=
  let core1 := { s.queueCore with queue := s.queueCore.queue ++ [job] }
  match s.queueCore.state with
  | QueueState.Idle =>
    let core2 := { core1 with state := QueueState.Pending }
    let pw := schedule_thread s.pool
    Except.ok ({ queueCore := core2, schedule := s.schedule ++ [()], pool := pw.1 },
               some pw.2)
  | QueueState.Panicked => Except.error "Cannot schedule jobs on a panicked queue"
  | _ => Except.ok ({ s with queueCore := core1 }, none)

/-- What happened to the caller of `Scheduler::sync`: the job ran inline on
an idle queue, the caller drained the queue on its own thread, or the job
was submitted as a background job and the caller blocked on a condvar. -/
inductive SyncOutcome where
  | ranInline (log : List Nat)
  | drained (log : List Nat)
  | blockedOnCondvar
deriving DecidableEq, Repr

/-- The dequeue-and-run loop of `Scheduler::sync_drain` (lines 391-463):
run jobs from the front of the FIFO until the sync result job (`target`)
has produced its result.  Returns the executed log and the remaining FIFO. -/
def drainUntil (target : Nat) : List Nat → List Nat × List Nat
  | [] => ([], [])
  | j :: rest =>
    if j = target then ([j], rest)
    else
      let lr := drainUntil target rest
      (j :: lr.1, lr.2)

/-- `Scheduler::sync_immediate` (lines 345-361): run the job inline, set
the queue state to `Idle`, then `reschedule_queue`.  Returns the new core,
the run-list and the execution log. -/
def sync_immediate (c : JobQueueCore) (sched : List Unit) (j : Nat) :
    JobQueueCore × List Unit × List Nat :=
  let c1 := { c with state := QueueState.Idle }
  let cs := reschedule_queue c1 sched
  (cs.1, cs.2, [j])

/-- `Scheduler::sync_drain` (lines 366-478): push the result job at the
back of the FIFO, run jobs from the front until the result is produced,
set the state to `Idle` and `reschedule_queue` any remainder. -/
def sync_drain (c : JobQueueCore) (sched : List Unit) (j : Nat) :
    JobQueueCore × List Unit × List Nat :=
  let lr := drainUntil j (c.queue ++ [j])
  let c1 := { c with queue := lr.2, state := QueueState.Idle }
  let cs := reschedule_queue c1 sched
  (cs.1, cs.2, lr.1)

/-- `Scheduler::sync_background` (lines 483-522): append a job that will
signal a condvar when it runs; reschedule the queue if it was `Idle`; the
caller then blocks on the condvar. -/
def sync_background (c : JobQueueCore) (sched : List Unit) (j : Nat) :
    JobQueueCore × List Unit :=
  let c1 := { c with queue := c.queue ++ [j] }
  if c.state = QueueState.Idle then reschedule_queue c1 sched else (c1, sched)

/-- `Scheduler::sync` (lines 528-565): choose the run action from the queue
state under the core mutex (marking the queue `Running` in the `Idle` and
`Pending` cases), then perform it. -/
def sync (c : JobQueueCore) (sched : List Unit) (j : Nat) :
    Except String (JobQueueCore × List Unit × SyncOutcome) :=
  match c.state with
  | QueueState.Suspended | QueueState.Suspending | QueueState.Running
  | QueueState.WaitingForWake | QueueState.AwokenWhileRunning =>
    let cs := sync_background c sched j
    Except.ok (cs.1, cs.2, SyncOutcome.blockedOnCondvar)
  | QueueState.Panicked => Except.error "Cannot schedule new jobs on a panicked queue"
  | QueueState.Pending =>
    let r := sync_drain { c with state := QueueState.Running } sched j
    Except.ok (r.1, r.2.1, SyncOutcome.drained r.2.2)
  | QueueState.Idle =>
    let r := sync_immediate { c with state := QueueState.Running } sched j
    Except.ok (r.1, r.2.1, SyncOutcome.ranInline r.2.2)

/-- Body of the job queued by `Scheduler::suspend` (lines 284-300): under
the core lock, increment `suspension_count`; when the count becomes exactly
1, move the state to `Suspending`; signal the completion channel when the
count is positive.  The returned flag records whether the channel was
signalled. -/
def run_suspend_job (c : JobQueueCore) : JobQueueCore × Bool :=
  let c1 := { c with suspension_count := c.suspension_count + 1 }
  let c2 :=
    if c1.suspension_count = 1 then { c1 with state := QueueState.Suspending }
    else c1
  (c2, decide (0 < c2.suspension_count))

/-- `Scheduler::resume` without the trailing reschedule (lines 312-335):
decrement `suspension_count`; when the result is `<= 0`, a `Suspended`
queue becomes `Idle` (and needs rescheduling) and a `Suspending` queue goes
back to `Running`.  Returns the flag `needs_reschedule`. -/
def resume (c : JobQueueCore) : JobQueueCore × Bool :=
  let c1 := { c with suspension_count := c.suspension_count - 1 }
  if c1.suspension_count ≤ 0 then
    match c1.state with
    | QueueState.Suspended => ({ c1 with state := QueueState.Idle }, true)
    | QueueState.Suspending => ({ c1 with state := QueueState.Running }, false)
    | _ => (c1, false)
  else (c1, false)

/-- `Scheduler::resume` (lines 308-340): decrement-and-transition, then
`reschedule_queue` when the queue returned to `Idle`. -/
def resume_full (c : JobQueueCore) (sched : List Unit) :
    JobQueueCore × List Unit :=
  let cb := resume c
  if cb.2 then reschedule_queue cb.1 sched else (cb.1, sched)

/-- Events that touch a queue's `suspension_count`: a call to
`Scheduler::suspend` (which only queues the suspension job), the later
execution of that queued job (which performs the increment), and a call to
`Scheduler::resume` (which decrements immediately). -/
inductive SuspOp where
  | suspendCall
  | runSuspendJob
  | resumeCall
deriving DecidableEq, Repr

/-- Bookkeeping for a trace of suspension events: the queue's
`suspension_count`, the number of suspension jobs queued but not yet run,
and counters of calls and executed suspension jobs. -/
structure SuspModel where
  count : Int
  queuedSuspends : Nat
  executedSuspends : Nat
  resumeCalls : Nat
  suspendCalls : Nat
deriving DecidableEq, Repr

/-- One suspension event, following `Scheduler::suspend` (the increment
happens only when the queued job runs) and `Scheduler::resume` (the
decrement is unconditional). -/
def suspStep (m : SuspModel) : SuspOp → SuspModel
  | SuspOp.suspendCall =>
    { m with queuedSuspends := m.queuedSuspends + 1,
             suspendCalls := m.suspendCalls + 1 }
  | SuspOp.runSuspendJob =>
    if 0 < m.queuedSuspends then
      { m with count := m.count + 1,
               queuedSuspends := m.queuedSuspends - 1,
               executedSuspends := m.executedSuspends + 1 }
    else m
  | SuspOp.resumeCall =>
    { m with count := m.count - 1, resumeCalls := m.resumeCalls + 1 }

/-- Runs a trace of suspension events on a fresh queue
(`suspension_count = 0`, nothing queued). -/
def suspRun (ops : List SuspOp) : SuspModel :=
  ops.foldl suspStep ⟨0, 0, 0, 0, 0⟩

deriving instance DecidableEq for Except

/-- Modelled from the spec: `Scheduler::sync_no_panic` is called by
`Desync`'s `Drop` implementation but is not among the sources.  Per spec
§4.5/§5 it behaves like `sync` but never panics itself: on a `Panicked`
queue the serialized drop job still runs (inline) instead of panicking. -/
def sync_no_panic (c : JobQueueCore) (sched : List Unit) (j : Nat) :
    JobQueueCore × List Unit × SyncOutcome :=
  match sync c sched j with
  | Except.ok r => r
  | Except.error _ => (c, sched, SyncOutcome.ranInline [j])

/-- The `Desync<T>` handle (desync.rs): the datum (a `Nat` stands for the
boxed value; `none` only while it is being dropped) together with its
queue's core and run-list entries. -/
structure DesyncHandle where
  data : Option Nat
  core : JobQueueCore
  sched : List Unit
deriving DecidableEq, Repr

/-- Result of running `Desync`'s `drop`: the handle's datum after the take,
the datum the queued drop job destroys, whether the panic-free sync variant
was used, and the synchronous submission's result. -/
structure DropRun where
  newData : Option Nat
  dropped : Option Nat
  usedNoPanic : Bool
  result : Except String (JobQueueCore × List Unit × SyncOutcome)
deriving DecidableEq, Repr

/-- `impl Drop for Desync` (desync.rs lines 151-173): take the datum out of
the handle, then submit a synchronous job (id `j`) that drops the taken
datum; when the current thread is already panicking use `sync_no_panic`,
otherwise use `sync`. -/
def desyncDrop (panicking : Bool) (h : DesyncHandle) (j : Nat) : DropRun :=
  let taken := h.data
  if panicking then
    { newData := none, dropped := taken, usedNoPanic := true,
      result := Except.ok (sync_no_panic h.core h.sched j) }
  else
    { newData := none, dropped := taken, usedNoPanic := false,
      result := sync h.core h.sched j }

/-- A future as a finite polling sequence: either ready with a value or
pending, to be polled again. -/
inductive DFuture (α : Type) where
  | ready (a : α)
  | pending (rest : DFuture α)

/-- Sequencing of futures: awaiting the first and continuing with the
second (the `.await` inside an `async` block). -/
def DFuture.bind {α β : Type} : DFuture α → (α → DFuture β) → DFuture β
  | DFuture.ready a, f => f a
  | DFuture.pending r, f => DFuture.pending (r.bind f)

/-- Number of `Pending` polls before the future resolves. -/
def DFuture.steps {α : Type} : DFuture α → Nat
  | DFuture.ready _ => 0
  | DFuture.pending r => r.steps + 1

/-- The value the future eventually resolves to. -/
def DFuture.value {α : Type} : DFuture α → α
  | DFuture.ready a => a
  | DFuture.pending r => r.value

/-- A future-job submitted on a `Desync` handle's queue: the closure that,
given exclusive access to the datum, yields the future the queue hosts.
The future resolves to the mutated datum and the job's result
(`Desync::future`, desync.rs lines 121-134). -/
structure FutureSubmission (τ ρ : Type) where
  jobClosure : τ → DFuture (τ × ρ)

/-- `Desync::future` (desync.rs lines 121-134): submits the closure's
future on the handle's queue and returns the completion handle; the
observable submission is the closure itself. -/
def Desync.future {τ ρ : Type} (job : τ → DFuture (τ × ρ)) :
    FutureSubmission τ ρ :=
  { jobClosure := job }

/-- `Desync::after` (desync.rs lines 140-148): implemented through
`Desync.future` with the closure `async move { let v = after.await;
job(data, v) }`, i.e. await `fut` first, then apply `job` to the datum and
the awaited value. -/
def Desync.after {τ α ρ : Type} (fut : DFuture α) (job : τ → α → τ × ρ) :
    FutureSubmission τ ρ :=
  Desync.future (fun data => fut.bind (fun v => DFuture.ready (job data v)))

/-- The comparison point for the refinement claim, written from the spec's
words ("equivalent to submitting a future-job that first awaits `fut`,
then invokes `job` with its output"): `Desync.future` applied to a closure
that returns the future awaiting `fut` and then calling `job` with the
datum and the awaited result. -/
def afterViaFutureSpec {τ α ρ : Type} (fut : DFuture α)
    (job : τ → α → τ × ρ) : FutureSubmission τ ρ :=
  Desync.future (fun data => fut.bind (fun v => DFuture.ready (job data v)))

/-- `MIN_THREADS` (desync_scheduler.rs line 27). -/
def MIN_THREADS : Nat := 8

/-- `initial_max_threads` for hosted targets (desync_scheduler.rs lines
37-39): `MIN_THREADS.max(num_cpus::get()*2)`, with the CPU count passed as
a parameter. -/
def initial_max_threads_hosted (numCpus : Nat) : Nat :=
  MIN_THREADS.max (numCpus * 2)

/-- `initial_max_threads` for the `wasm32` target (desync_scheduler.rs
lines 45-47). -/
def initial_max_threads_wasm32 : Nat := 0

/-- The scheduler core built by `Scheduler::new` (desync_scheduler.rs lines
62-72): empty run-list, empty threads vector, `max_threads` initialized to
`initial_max_threads()`; the `cfg(target_arch = "wasm32")` switch is the
boolean parameter. -/
def Scheduler.new (wasm32 : Bool) (numCpus : Nat) : WorkerPool :=
  { busy := [],
    max_threads :=
      if wasm32 then initial_max_threads_wasm32
      else initial_max_threads_hosted numCpus }

/-- One outcome of polling the upstream stream inside the bridge (futures
0.1 `Poll<Option<Item>, Error>`): not ready, end of stream, an item, or a
stream error. -/
inductive UpEvent (ι ε : Type) where
  | notReady
  | endOfStream
  | item (i : ι)
  | failure (e : ε)
deriving DecidableEq, Repr

/-- How a job was handed to the target queue: through the blocking
`Desync::sync` or through the non-blocking `Desync::desync`. -/
inductive SubmitKind where
  | syncSubmit
  | asyncSubmit
deriving DecidableEq, Repr

/-- A job submission recorded by the bridge: the submission kind and the
item or error passed to the processor closure. -/
structure Submission (ι ε : Type) where
  kind : SubmitKind
  payload : Except ε ι
deriving DecidableEq, Repr

/-- Result of one call of the bridge's polling closure: pending, bridge
terminated, or the modelled upstream ran out of scripted events. -/
inductive BridgeResult where
  | notReady
  | terminated
  | exhausted
deriving DecidableEq, Repr

/-- The polling closure of `pipe_in` (pipe.rs lines 43-77), with the
upstream stream scripted as a list of poll outcomes: loop polling the
upstream; on `NotReady` return pending; on `Ready(None)` terminate the
bridge; on an item or error call `desync.sync` with a job that applies the
processor to `(&mut core, item_or_error)` — because the submission is
synchronous, the processor has updated the core before the next poll. -/
def pipe_in_poll {κ ι ε : Type} (process : κ → Except ε ι → κ) :
    List (UpEvent ι ε) → κ → κ × List (Submission ι ε) × BridgeResult
  | [], core => (core, [], BridgeResult.exhausted)
  | UpEvent.notReady :: _, core => (core, [], BridgeResult.notReady)
  | UpEvent.endOfStream :: _, core => (core, [], BridgeResult.terminated)
  | UpEvent.item i :: rest, core =>
    let core1 := process core (Except.ok i)
    let r := pipe_in_poll process rest core1
    (r.1, ⟨SubmitKind.syncSubmit, Except.ok i⟩ :: r.2.1, r.2.2)
  | UpEvent.failure e :: rest, core =>
    let core1 := process core (Except.error e)
    let r := pipe_in_poll process rest core1
    (r.1, ⟨SubmitKind.syncSubmit, Except.error e⟩ :: r.2.1, r.2.2)

/-- The items and errors produced by the upstream script before its first
`NotReady` or end-of-stream. -/
def leadingItems {ι ε : Type} : List (UpEvent ι ε) → List (Except ε ι)
  | UpEvent.item i :: rest => Except.ok i :: leadingItems rest
  | UpEvent.failure e :: rest => Except.error e :: leadingItems rest
  | _ => []

/-- The upstream script from its first `NotReady` or end-of-stream event
on (empty when the script is all items and errors). -/
def afterItems {ι ε : Type} : List (UpEvent ι ε) → List (UpEvent ι ε)
  | UpEvent.item _ :: rest => afterItems rest
  | UpEvent.failure _ :: rest => afterItems rest
  | evs => evs

/-- `PipeStreamCore` (pipe.rs lines 165-174): the pending FIFO of processed
results, the closed flag, and the task to notify (a `Nat` stands for a
`task::Task`). -/
structure PipeStreamCore (ι ε : Type) where
  pending : List (Except ε ι)
  closed : Bool
  notify : Option Nat
deriving DecidableEq, Repr

/-- Result of `PipeStream::poll` (futures 0.1): `Ok(Async::Ready(Some(i)))`,
`Ok(Async::Ready(None))`, `Err(e)` or `Ok(Async::NotReady)`. -/
inductive PipePoll (ι ε : Type) where
  | readySome (i : ι)
  | readyNone
  | errOut (e : ε)
  | notReady
deriving DecidableEq, Repr

/-- `impl Stream for PipeStream`, `poll` (pipe.rs lines 214-233): pop the
front of the pending FIFO and return it (`Ok` as a ready item, `Err` as a
stream error); when the FIFO is empty return end-of-stream if closed, and
otherwise store the current task and return not-ready. -/
def pipeStreamPoll {ι ε : Type} (task : Nat) (c : PipeStreamCore ι ε) :
    PipeStreamCore ι ε × PipePoll ι ε :=
  match c.pending with
  | r :: rest =>
    ({ c with pending := rest },
      match r with
      | Except.ok i => PipePoll.readySome i
      | Except.error e => PipePoll.errOut e)
  | [] =>
    if c.closed then (c, PipePoll.readyNone)
    else ({ c with notify := some task }, PipePoll.notReady)

/-- The bridge's push into the downstream stream (pipe.rs lines 145-148):
append the processed result at the back of the pending FIFO (and take the
stored notify task to wake it). -/
def pipeStreamPush {ι ε : Type} (r : Except ε ι) (c : PipeStreamCore ι ε) :
    PipeStreamCore ι ε :=
  { c with pending := c.pending ++ [r], notify := none }

/-- Draining a queue that ends in the sync result job and does not contain
it earlier runs every job, in FIFO order, and leaves the queue empty. -/
theorem drainUntil_append_self (j : Nat) (l : List Nat) (h : j ∉ l) :
    drainUntil j (l ++ [j]) = (l ++ [j], []) := by
  induction l with
  | nil => simp [drainUntil]
  | cons a rest ih =>
    have ha : a ≠ j := fun haj => h (haj ▸ List.mem_cons_self a rest)
    have hrest : j ∉ rest := fun hm => h (List.mem_cons_of_mem a hm)
    simp [drainUntil, ha, ih hrest]

/-- When some worker is idle, `wakeIdle` succeeds. -/
theorem wakeIdle_ne_none_of_mem (l : List Bool) (h : false ∈ l) :
    wakeIdle l ≠ none := by
  induction l with
  | nil => simp at h
  | cons b rest ih =>
    cases b with
    | false => simp [wakeIdle]
    | true =>
      have hm : false ∈ rest := by
        rcases List.mem_cons.mp h with hb | hm
        · simp at hb
        · exact hm
      cases hw : wakeIdle rest with
      | none => exact absurd hw (ih hm)
      | some l2 => simp [wakeIdle, hw]

/-- When every worker is busy, `wakeIdle` fails. -/
theorem wakeIdle_eq_none_of_not_mem (l : List Bool) (h : false ∉ l) :
    wakeIdle l = none := by
  induction l with
  | nil => rfl
  | cons b rest ih =>
    cases b with
    | false => exact absurd (List.mem_cons_self _ _) h
    | true =>
      have : false ∉ rest := fun hm => h (List.mem_cons_of_mem _ hm)
      simp [wakeIdle, ih this]

/-- The decrement performed by `Scheduler::resume` is unconditional. -/
theorem resume_suspension_count (c : JobQueueCore) :
    (resume c).1.suspension_count = c.suspension_count - 1 := by
  obtain ⟨q, st, sc⟩ := c
  rcases st <;> simp [resume] <;> split_ifs <;> rfl

/-- `reschedule_queue` never touches the suspension count. -/
theorem reschedule_queue_suspension_count (c : JobQueueCore) (sched : List Unit) :
    (reschedule_queue c sched).1.suspension_count = c.suspension_count := by
  unfold reschedule_queue
  split_ifs <;> rfl

/-- The full `Scheduler::resume` decrements the suspension count by one. -/
theorem resume_full_suspension_count (c : JobQueueCore) (sched : List Unit) :
    (resume_full c sched).1.suspension_count = c.suspension_count - 1 := by
  have hdef : resume_full c sched =
      if (resume c).2 then reschedule_queue (resume c).1 sched
      else ((resume c).1, sched) := rfl
  rw [hdef]
  split_ifs with h
  · rw [reschedule_queue_suspension_count, resume_suspension_count]
  · exact resume_suspension_count c

/-- The job queued by `Scheduler::suspend` increments the suspension count
by one when it runs. -/
theorem run_suspend_job_suspension_count (c : JobQueueCore) :
    (run_suspend_job c).1.suspension_count = c.suspension_count + 1 := by
  obtain ⟨q, st, sc⟩ := c
  simp [run_suspend_job]
  split_ifs <;> rfl

/-- Folding suspension events preserves the relation between the count and
the executed-suspend and resume counters. -/
theorem suspFold_count_eq (ops : List SuspOp) (m : SuspModel)
    (h : m.count = (m.executedSuspends : Int) - m.resumeCalls) :
    (ops.foldl suspStep m).count =
      ((ops.foldl suspStep m).executedSuspends : Int) -
        (ops.foldl suspStep m).resumeCalls := by
  induction ops generalizing m with
  | nil => exact h
  | cons op rest ih =>
    refine ih (suspStep m op) ?_
    cases op with
    | suspendCall => simpa [suspStep] using h
    | runSuspendJob =>
      by_cases hq : 0 < m.queuedSuspends
      · simp [suspStep, hq]
        omega
      · simpa [suspStep, hq] using h
    | resumeCall =>
      simp [suspStep]
      omega

/-- Awaiting a future and then returning a pure value keeps the poll
count of the awaited future. -/
theorem DFuture.steps_bind_ready {α β : Type} (f : DFuture α) (g : α → β) :
    (f.bind fun v => DFuture.ready (g v)).steps = f.steps := by
  induction f with
  | ready a => rfl
  | pending r ih => simp [DFuture.bind, DFuture.steps, ih]

/-- Awaiting a future and then returning a pure value resolves to that
value applied to the awaited result. -/
theorem DFuture.value_bind_ready {α β : Type} (f : DFuture α) (g : α → β) :
    (f.bind fun v => DFuture.ready (g v)).value = g f.value := by
  induction f with
  | ready a => rfl
  | pending r ih => simpa [DFuture.bind, DFuture.value] using ih




/-- Claim C1: for every job queue, a synchronous submission
(`Scheduler::sync`) chooses its run action from the queue state at entry:
`Idle` marks the queue `Running`, runs the job inline, marks it `Idle`
again and reschedules if pending; `Pending` marks the queue `Running` and
drains it on the caller's thread until the sync job has produced its
result; `Running`, `WaitingForWake`, `AwokenWhileRunning`, `Suspending`
and `Suspended` submit the job as a normal background job that signals a
condvar when done and block the caller on it; `Panicked` fails fatally. -/
theorem c1_sync_run_actions (c : JobQueueCore) (sched : List Unit) (j : Nat)
    (hj : j ∉ c.queue) :
    (c.state = QueueState.Idle →
      sync c sched j =
        if c.queue = [] then
          Except.ok ({ c with state := QueueState.Idle }, sched,
            SyncOutcome.ranInline [j])
        else
          Except.ok ({ c with state := QueueState.Pending }, sched ++ [()],
            SyncOutcome.ranInline [j])) ∧
    (c.state = QueueState.Pending →
      sync c sched j =
        Except.ok ({ c with queue := [], state := QueueState.Idle }, sched,
          SyncOutcome.drained (c.queue ++ [j]))) ∧
    ((c.state = QueueState.Running ∨ c.state = QueueState.WaitingForWake ∨
      c.state = QueueState.AwokenWhileRunning ∨
      c.state = QueueState.Suspending ∨ c.state = QueueState.Suspended) →
      sync c sched j =
        Except.ok ({ c with queue := c.queue ++ [j] }, sched,
          SyncOutcome.blockedOnCondvar)) ∧
    (c.state = QueueState.Panicked →
      sync c sched j =
        Except.error "Cannot schedule new jobs on a panicked queue") := by
  obtain ⟨q, st, sc⟩ := c
  have hj2 : j ∉ q := hj
  refine ⟨?_, ?_, ?_, ?_⟩
  · intro h
    have hst : st = QueueState.Idle := h
    subst hst
    by_cases hq : q = [] <;>
      simp [sync, sync_immediate, reschedule_queue, hq]
  · intro h
    have hst : st = QueueState.Pending := h
    subst hst
    simp [sync, sync_drain, reschedule_queue, drainUntil_append_self j q hj2]
  · intro h
    have hst : st = QueueState.Running ∨ st = QueueState.WaitingForWake ∨
        st = QueueState.AwokenWhileRunning ∨ st = QueueState.Suspending ∨
        st = QueueState.Suspended := h
    rcases hst with rfl | rfl | rfl | rfl | rfl <;>
      simp [sync, sync_background, reschedule_queue]
  · intro h
    have hst : st = QueueState.Panicked := h
    subst hst
    rfl

/-- Witness for C1 at a `Pending` queue holding jobs 1 and 2: the caller
drains the whole queue, running 1, 2 and then the sync job 9. -/
theorem c1_sync_run_actions_witness :
    sync ⟨[1, 2], QueueState.Pending, 0⟩ [] 9 =
      Except.ok (⟨[], QueueState.Idle, 0⟩, [],
        SyncOutcome.drained [1, 2, 9]) :=
  (c1_sync_run_actions ⟨[1, 2], QueueState.Pending, 0⟩ [] 9 (by decide)).2.1 rfl

/-- Claim C2 counterexample: with the thread cap at 0 and no workers, an
asynchronous submission on an `Idle` queue appends the job, moves the
queue to `Pending` and pushes it on the run-list, but no worker thread is
woken or spawned — `schedule_thread` does nothing — contradicting the
claim that "a worker thread is woken or spawned". -/
theorem c2_submit_at_cap_counterexample :
    schedule_job_desync ⟨⟨[], QueueState.Idle, 0⟩, [], ⟨[], 0⟩⟩ 7 =
      Except.ok (⟨⟨[7], QueueState.Pending, 0⟩, [()], ⟨[], 0⟩⟩,
        some WakeResult.noAction) ∧
    WakeResult.noAction ≠ WakeResult.woke ∧
    WakeResult.noAction ≠ WakeResult.spawned :=
  ⟨rfl, by decide, by decide⟩

/-- Claim C2 (amended): an asynchronous submission
(`Scheduler::schedule_job_desync`) appends the job to the queue's FIFO; if
the queue state at submission was `Idle` the state becomes `Pending`, the
queue is pushed onto the global run-list and the scheduler attempts to
wake or spawn a worker — waking an idle worker when one exists, spawning a
new one when all are busy and the pool is under `max_threads`, and doing
nothing when all are busy at the cap; if the state was `Panicked` the
submission fails fatally; in every other state the submission leaves the
queue state, the run-list and the pool unchanged. -/
theorem c2_schedule_job_desync_amended (s : SchedulerState) (job : Nat) :
    (s.queueCore.state = QueueState.Idle →
      schedule_job_desync s job =
        Except.ok
          ({ queueCore := { s.queueCore with
                queue := s.queueCore.queue ++ [job],
                state := QueueState.Pending },
             schedule := s.schedule ++ [()],
             pool := (schedule_thread s.pool).1 },
           some (schedule_thread s.pool).2)) ∧
    (s.queueCore.state = QueueState.Panicked →
      schedule_job_desync s job =
        Except.error "Cannot schedule jobs on a panicked queue") ∧
    (s.queueCore.state ≠ QueueState.Idle →
      s.queueCore.state ≠ QueueState.Panicked →
      schedule_job_desync s job =
        Except.ok
          ({ s with queueCore := { s.queueCore with
              queue := s.queueCore.queue ++ [job] } }, none)) ∧
    (false ∈ s.pool.busy → (schedule_thread s.pool).2 = WakeResult.woke) ∧
    (false ∉ s.pool.busy → s.pool.busy.length < s.pool.max_threads →
      (schedule_thread s.pool).2 = WakeResult.spawned) ∧
    (false ∉ s.pool.busy → ¬ s.pool.busy.length < s.pool.max_threads →
      (schedule_thread s.pool).2 = WakeResult.noAction) := by
  obtain ⟨⟨q, st, sc⟩, sched, pool⟩ := s
  refine ⟨?_, ?_, ?_, ?_, ?_, ?_⟩
  · intro h
    have hst : st = QueueState.Idle := h
    subst hst
    rfl
  · intro h
    have hst : st = QueueState.Panicked := h
    subst hst
    rfl
  · intro h1 h2
    have h1b : st ≠ QueueState.Idle := h1
    have h2b : st ≠ QueueState.Panicked := h2
    cases st <;> first
      | exact absurd rfl h1b
      | exact absurd rfl h2b
      | rfl
  · intro hmem
    have hmem2 : false ∈ pool.busy := hmem
    cases hw : wakeIdle pool.busy with
    | none => exact absurd hw (wakeIdle_ne_none_of_mem _ hmem2)
    | some l2 => simp [schedule_thread, hw]
  · intro hmem hlen
    have hmem2 : false ∉ pool.busy := hmem
    have hlen2 : pool.busy.length < pool.max_threads := hlen
    simp [schedule_thread, wakeIdle_eq_none_of_not_mem _ hmem2, hlen2]
  · intro hmem hlen
    have hmem2 : false ∉ pool.busy := hmem
    have hlen2 : ¬ pool.busy.length < pool.max_threads := hlen
    simp [schedule_thread, wakeIdle_eq_none_of_not_mem _ hmem2, hlen2]

/-- Witness for the amended C2 at a `Running` queue: the job is appended
and everything else is untouched. -/
theorem c2_schedule_job_desync_amended_witness :
    schedule_job_desync ⟨⟨[1], QueueState.Running, 0⟩, [], ⟨[true], 1⟩⟩ 7 =
      Except.ok (⟨⟨[1, 7], QueueState.Running, 0⟩, [], ⟨[true], 1⟩⟩, none) :=
  (c2_schedule_job_desync_amended
      ⟨⟨[1], QueueState.Running, 0⟩, [], ⟨[true], 1⟩⟩ 7).2.2.1
    (by decide) (by decide)

/-- Claim C3 counterexample: `Scheduler::resume` decrements
`suspension_count` unconditionally, so a single unmatched `resume` on a
fresh queue drives the count to -1, below zero; and because the increment
of a `suspend` only happens when its queued suspension job runs, right
after a `suspend` call the count is 0 while one suspend call is
outstanding and unmatched — both parts of the claimed invariant fail. -/
theorem c3_suspension_count_counterexample :
    (suspRun [SuspOp.resumeCall]).count = -1 ∧
    ¬ 0 ≤ (suspRun [SuspOp.resumeCall]).count ∧
    (suspRun [SuspOp.suspendCall]).count = 0 ∧
    (suspRun [SuspOp.suspendCall]).suspendCalls -
        (suspRun [SuspOp.suspendCall]).resumeCalls = 1 := by
  decide

/-- Claim C3 (amended): `suspension_count` equals the number of executed
suspension jobs minus the number of `resume` calls; it is non-negative on
every trace whose prefixes all have at least as many executed suspension
jobs as `resume` calls (the matched-usage discipline the source's TODO
asks for); an unmatched `resume` drives it below zero. -/
theorem c3_suspension_count_amended (ops : List SuspOp) :
    (suspRun ops).count =
      ((suspRun ops).executedSuspends : Int) - (suspRun ops).resumeCalls ∧
    ((∀ n, n ≤ ops.length →
        (suspRun (ops.take n)).resumeCalls ≤
          (suspRun (ops.take n)).executedSuspends) →
      0 ≤ (suspRun ops).count) := by
  have h1 : (suspRun ops).count =
      ((suspRun ops).executedSuspends : Int) - (suspRun ops).resumeCalls :=
    suspFold_count_eq ops ⟨0, 0, 0, 0, 0⟩ (by decide)
  refine ⟨h1, fun hpre => ?_⟩
  have h2 := hpre ops.length le_rfl
  rw [List.take_length] at h2
  rw [h1]
  omega

/-- Witness for the amended C3 on the matched trace
suspend-call, job-runs, resume. -/
theorem c3_suspension_count_amended_witness :
    0 ≤ (suspRun [SuspOp.suspendCall, SuspOp.runSuspendJob,
        SuspOp.resumeCall]).count :=
  (c3_suspension_count_amended
      [SuspOp.suspendCall, SuspOp.runSuspendJob, SuspOp.resumeCall]).2
    (by decide)

/-- Claim C4: `Scheduler::resume` decrements the suspension count; when
the count thereby reaches zero, a `Suspended` queue becomes `Idle` and is
rescheduled (onto the run-list, as `Pending`) exactly when it has pending
work, and a `Suspending` queue becomes `Running`; when the count remains
positive the queue state is left unchanged. -/
theorem c4_resume (c : JobQueueCore) (sched : List Unit) :
    ((resume_full c sched).1.suspension_count = c.suspension_count - 1) ∧
    (c.suspension_count = 1 →
      (c.state = QueueState.Suspended →
        resume_full c sched =
          if c.queue = [] then
            ({ c with suspension_count := 0, state := QueueState.Idle }, sched)
          else
            ({ c with suspension_count := 0, state := QueueState.Pending },
              sched ++ [()])) ∧
      (c.state = QueueState.Suspending →
        resume_full c sched =
          ({ c with suspension_count := 0, state := QueueState.Running },
            sched))) ∧
    (1 < c.suspension_count →
      resume_full c sched =
        ({ c with suspension_count := c.suspension_count - 1 }, sched)) := by
  obtain ⟨q, st, sc⟩ := c
  refine ⟨resume_full_suspension_count _ _, fun hsc => ⟨?_, ?_⟩, fun hsc => ?_⟩
  · intro h
    have hst : st = QueueState.Suspended := h
    subst hst
    have hsc2 : sc = 1 := hsc
    subst hsc2
    by_cases hq : q = [] <;>
      simp [resume_full, resume, reschedule_queue, hq]
  · intro h
    have hst : st = QueueState.Suspending := h
    subst hst
    have hsc2 : sc = 1 := hsc
    subst hsc2
    simp [resume_full, resume, reschedule_queue]
  · have hsc2 : (1 : Int) < sc := hsc
    have hpos : ¬ sc - 1 ≤ 0 := by omega
    cases st <;> simp [resume_full, resume, reschedule_queue, hpos]

/-- Witness for C4: resuming a `Suspended` queue with one outstanding
suspension and pending work returns it to the run-list as `Pending`. -/
theorem c4_resume_witness :
    resume_full ⟨[3], QueueState.Suspended, 1⟩ [] =
      (⟨[3], QueueState.Pending, 0⟩, [()]) := by
  have h := ((c4_resume ⟨[3], QueueState.Suspended, 1⟩ []).2.1 rfl).1 rfl
  simpa using h

/-- Claim C5: a `suspend` whose suspension job has run, followed by a
`resume` with no intervening `suspend`, leaves the queue's
`suspension_count` equal to its value before the pair. -/
theorem c5_suspend_resume_roundtrip (c : JobQueueCore) (sched : List Unit) :
    (resume_full (run_suspend_job c).1 sched).1.suspension_count =
      c.suspension_count := by
  rw [resume_full_suspension_count, run_suspend_job_suspension_count]
  omega

/-- Claim C6: `Desync`'s `drop` first takes the datum out of the handle,
then submits a synchronous job on the handle's queue that drops the taken
datum and waits for it; when the current thread is already panicking it
uses the panic-free variant `sync_no_panic`, so the serialized drop still
occurs without panicking again — in particular, even on a `Panicked`
queue the drop job still runs and no error is raised. -/
theorem c6_desync_drop (p : Bool) (h : DesyncHandle) (j : Nat) :
    ((desyncDrop p h j).newData = none) ∧
    ((desyncDrop p h j).dropped = h.data) ∧
    ((desyncDrop p h j).usedNoPanic = p) ∧
    (p = false → (desyncDrop p h j).result = sync h.core h.sched j) ∧
    (p = true →
      (desyncDrop p h j).result =
        Except.ok (sync_no_panic h.core h.sched j)) ∧
    (p = true → h.core.state = QueueState.Panicked →
      (desyncDrop p h j).result =
        Except.ok (h.core, h.sched, SyncOutcome.ranInline [j])) := by
  obtain ⟨data, ⟨q, st, sc⟩, sched⟩ := h
  cases p with
  | false =>
    refine ⟨rfl, rfl, rfl, fun _ => rfl, fun hp => by simp at hp, fun hp => by simp at hp⟩
  | true =>
    refine ⟨rfl, rfl, rfl, fun hp => by simp at hp, fun _ => rfl, fun _ hst => ?_⟩
    have hst2 : st = QueueState.Panicked := hst
    subst hst2
    rfl

/-- Witness for C6: dropping a handle on a panicked queue from a
panicking thread still performs the serialized drop without an error. -/
theorem c6_desync_drop_witness :
    (desyncDrop true ⟨some 5, ⟨[], QueueState.Panicked, 0⟩, []⟩ 9).result =
      Except.ok (⟨[], QueueState.Panicked, 0⟩, [], SyncOutcome.ranInline [9]) :=
  (c6_desync_drop true ⟨some 5, ⟨[], QueueState.Panicked, 0⟩, []⟩ 9).2.2.2.2.2
    rfl rfl

/-- Claim C7 counterexample: on an upstream item, `pipe_in` submits the
processor invocation through `desync.sync` — a synchronous, blocking
submission — not as an asynchronous, non-blocking job as the claim
states: at the concrete upstream script [item 3, not-ready] the one
recorded submission has kind `syncSubmit`, which differs from
`asyncSubmit`. -/
theorem c7_pipe_in_sync_counterexample :
    (pipe_in_poll (fun (c : Nat) (_ : Except Nat Nat) => c + 1)
        [UpEvent.item 3, UpEvent.notReady] 0).2.1 =
      [⟨SubmitKind.syncSubmit, Except.ok 3⟩] ∧
    SubmitKind.syncSubmit ≠ SubmitKind.asyncSubmit :=
  ⟨rfl, by decide⟩

/-- Claim C7 (amended): for every item or error produced by the upstream
stream, `pipe_in` submits the invocation of the processor closure with
`(&mut core, item_or_error)` as a synchronous job (through `desync.sync`,
blocking the monitor until the processor has run) on the target `Desync`'s
queue, so the core is folded through the processor in upstream order; when
the upstream returns `Pending` the polling closure returns pending, and
when the upstream ends the bridge terminates. -/
theorem c7_pipe_in_amended {κ ι ε : Type} (process : κ → Except ε ι → κ)
    (evs : List (UpEvent ι ε)) (core : κ) :
    ((pipe_in_poll process evs core).2.1 =
      (leadingItems evs).map fun r => ⟨SubmitKind.syncSubmit, r⟩) ∧
    ((pipe_in_poll process evs core).1 =
      (leadingItems evs).foldl process core) ∧
    (∀ rest, afterItems evs = UpEvent.notReady :: rest →
      (pipe_in_poll process evs core).2.2 = BridgeResult.notReady) ∧
    (∀ rest, afterItems evs = UpEvent.endOfStream :: rest →
      (pipe_in_poll process evs core).2.2 = BridgeResult.terminated) := by
  induction evs generalizing core with
  | nil =>
    refine ⟨rfl, rfl, fun rest hr => ?_, fun rest hr => ?_⟩ <;>
      simp [afterItems] at hr
  | cons ev rest ih =>
    cases ev with
    | notReady =>
      refine ⟨rfl, rfl, fun r hr => rfl, fun r hr => ?_⟩
      simp [afterItems] at hr
    | endOfStream =>
      refine ⟨rfl, rfl, fun r hr => ?_, fun r hr => rfl⟩
      simp [afterItems] at hr
    | item i =>
      have h := ih (process core (Except.ok i))
      refine ⟨?_, ?_, fun r hr => ?_, fun r hr => ?_⟩
      · simpa [pipe_in_poll, leadingItems] using h.1
      · simpa [pipe_in_poll, leadingItems] using h.2.1
      · have hr2 : afterItems rest = UpEvent.notReady :: r := hr
        simpa [pipe_in_poll] using h.2.2.1 r hr2
      · have hr2 : afterItems rest = UpEvent.endOfStream :: r := hr
        simpa [pipe_in_poll] using h.2.2.2 r hr2
    | failure e =>
      have h := ih (process core (Except.error e))
      refine ⟨?_, ?_, fun r hr => ?_, fun r hr => ?_⟩
      · simpa [pipe_in_poll, leadingItems] using h.1
      · simpa [pipe_in_poll, leadingItems] using h.2.1
      · have hr2 : afterItems rest = UpEvent.notReady :: r := hr
        simpa [pipe_in_poll] using h.2.2.1 r hr2
      · have hr2 : afterItems rest = UpEvent.endOfStream :: r := hr
        simpa [pipe_in_poll] using h.2.2.2 r hr2

/-- Witness for the amended C7: an upstream that yields one item and then
is not ready makes the polling closure return pending. -/
theorem c7_pipe_in_amended_witness :
    (pipe_in_poll (fun (c : Nat) (r : Except Nat Nat) =>
        c + (r.toOption.getD 0))
      [UpEvent.item 4, UpEvent.notReady] 0).2.2 = BridgeResult.notReady :=
  (c7_pipe_in_amended (fun (c : Nat) (r : Except Nat Nat) =>
        c + (r.toOption.getD 0))
      [UpEvent.item 4, UpEvent.notReady] 0).2.2.1 [] rfl

/-- Claim C8: `Desync::after` applied to a future `fut` and a closure
`job` is the submission obtained by applying `Desync::future` to a closure
that returns the future awaiting `fut` and then calling `job` with the
datum and the awaited result; behaviorally, the hosted future takes
exactly `fut`'s polls to resolve and resolves to `job` applied to the
datum and `fut`'s output. -/
theorem c8_after_refines_future {τ α ρ : Type} (fut : DFuture α)
    (job : τ → α → τ × ρ) :
    Desync.after fut job = afterViaFutureSpec fut job ∧
    (∀ t, ((Desync.after fut job).jobClosure t).steps = fut.steps) ∧
    (∀ t, ((Desync.after fut job).jobClosure t).value = job t fut.value) :=
  ⟨rfl,
   fun t => DFuture.steps_bind_ready fut (fun v => job t v),
   fun t => DFuture.value_bind_ready fut (fun v => job t v)⟩

/-- Claim C9: the process-wide scheduler's `max_threads` tunable is
initialized to max(8, 2 × number of CPUs) on hosted (non-wasm32) targets
and to 0 on the single-threaded wasm32 target. -/
theorem c9_initial_max_threads (numCpus : Nat) :
    (Scheduler.new false numCpus).max_threads = Nat.max 8 (2 * numCpus) ∧
    (Scheduler.new true numCpus).max_threads = 0 := by
  constructor
  · simp [Scheduler.new, initial_max_threads_hosted, MIN_THREADS,
      Nat.mul_comm]
  · rfl

/-- Claim C10: each `PipeStream::poll` returns the oldest pending
processed result when one exists (an `Ok` item as a ready value, an `Err`
as a stream error), leaving the rest in order — and since the bridge
pushes at the back, results are delivered in push order; it returns
end-of-stream exactly when the closed flag is set and the pending buffer
is empty; otherwise it stores the current task for wakeup and returns
not-ready. -/
theorem c10_pipe_stream_poll {ι ε : Type} (task : Nat)
    (c : PipeStreamCore ι ε) :
    (∀ r rest, c.pending = r :: rest →
      pipeStreamPoll task c =
        ({ c with pending := rest },
          match r with
          | Except.ok i => PipePoll.readySome i
          | Except.error e => PipePoll.errOut e)) ∧
    ((pipeStreamPoll task c).2 = PipePoll.readyNone ↔
      c.closed = true ∧ c.pending = []) ∧
    (c.pending = [] → c.closed = false →
      pipeStreamPoll task c =
        ({ c with notify := some task }, PipePoll.notReady)) ∧
    (∀ r, (pipeStreamPush r c).pending = c.pending ++ [r]) := by
  obtain ⟨pend, closed, ntf⟩ := c
  refine ⟨fun r rest hr => ?_, ?_, fun hp hc => ?_, fun r => rfl⟩
  · have hr2 : pend = r :: rest := hr
    subst hr2
    cases r <;> rfl
  · cases pend with
    | nil =>
      cases closed with
      | false => simp [pipeStreamPoll]
      | true => simp [pipeStreamPoll]
    | cons r rest =>
      cases r <;> simp [pipeStreamPoll]
  · have hp2 : pend = [] := hp
    subst hp2
    have hc2 : closed = false := hc
    subst hc2
    rfl

/-- Witness for C10: polling a stream whose buffer holds one item
delivers that item and leaves an empty buffer. -/
theorem c10_pipe_stream_poll_witness :
    pipeStreamPoll 42 (⟨[Except.ok 1], false, none⟩ : PipeStreamCore Nat Nat) =
      (⟨[], false, none⟩, PipePoll.readySome 1) :=
  (c10_pipe_stream_poll 42
      (⟨[Except.ok 1], false, none⟩ : PipeStreamCore Nat Nat)).1
    (Except.ok 1) [] rfl
